import Mathlib

/-!
Verification development for the GitLab webhook code-review bot.

The Python sources are shallowly embedded: text is modelled as `List Char`
(`Str`), per-call side effects of external processes (git commands, the aider
subprocess, raised exceptions) are supplied as explicit environment values,
and every embedded function is an executable Lean definition translated
directly from the corresponding Python function.
-/

/-- Text is modelled as a list of characters, matching Python string
    semantics (length and slicing count characters). -/
abbrev Str := List Char

/-- A single quote character, used when building Python-repr style text. -/
def sqChar : Char := Char.ofNat 39

/-- Newline as a one-character string. -/
def nl : Str := ['\n']

/-- Python `str.isspace` / `\s` class, restricted to the ASCII whitespace
    characters produced by the programs modelled here. -/
def isPySpace (c : Char) : Bool :=
  c == ' ' || c == '\t' || c == '\n' || c == '\r' || c == '\x0b' || c == '\x0c'

/-- Python `str.lstrip()`. -/
def pyLstrip (s : Str) : Str := s.dropWhile isPySpace

/-- Python `str.rstrip()`. -/
def pyRstrip (s : Str) : Str := ((s.reverse).dropWhile isPySpace).reverse

/-- Python `str.strip()`. -/
def pyStrip (s : Str) : Str := pyRstrip (pyLstrip s)

/-- Python `str.lower()` (ASCII case folding, as used for the mention token). -/
def pyLower (s : Str) : Str := s.map Char.toLower

/-- Line-break characters recognised by Python `str.splitlines`
    (the `\r\n` pair is handled separately by the splitter). -/
def isPyLineBreak (c : Char) : Bool :=
  c == '\n' || c == '\r' || c == '\x0b' || c == '\x0c' ||
  c == '\x1c' || c == '\x1d' || c == '\x1e' || c == '\x85' ||
  c == Char.ofNat 0x2028 || c == Char.ofNat 0x2029

/-- Worker for `splitlinesPy`; `acc` holds the current line reversed. -/
def splitlinesGo : Str → Str → List Str
  | [], acc => if acc.isEmpty then [] else [acc.reverse]
  | '\r' :: '\n' :: rest, acc => acc.reverse :: splitlinesGo rest []
  | c :: rest, acc =>
    if isPyLineBreak c then acc.reverse :: splitlinesGo rest []
    else splitlinesGo rest (c :: acc)

/-- Python `str.splitlines()`: a trailing break produces no empty final
    line, and the empty string has no lines. -/
def splitlinesPy (s : Str) : List Str := splitlinesGo s []

/-- Worker for `natToStr`: fuel-driven digit extraction; the fuel, set to
    `n + 1`, always suffices because `n` shrinks by a factor of ten each step. -/
def natToStrAux : Nat → Nat → Str → Str
  | 0, _, acc => acc
  | fuel + 1, n, acc =>
    if n < 10 then Char.ofNat (48 + n % 10) :: acc
    else natToStrAux fuel (n / 10) (Char.ofNat (48 + n % 10) :: acc)

/-- Decimal rendering of a natural number, as Python `str(int)` produces. -/
def natToStr (n : Nat) : Str := natToStrAux (n + 1) n []

/-- Python `str(int)` for possibly-negative integers. -/
def intToStr : Int → Str
  | Int.ofNat m => natToStr m
  | Int.negSucc m => '-' :: natToStr (m + 1)

/-- Python substring test `pat in s`. -/
def strContains (pat s : Str) : Bool := s.tails.any (fun t => pat.isPrefixOf t)

/-- Python `s.replace(pat, "")` specialised to an empty replacement, as used
    for stripping the mention token.  Fuel is the input length; every step
    consumes at least one character, so the fuel never runs out. -/
def removeAllGo (pat : Str) : Nat → Str → Str
  | 0, s => s
  | _ + 1, [] => []
  | fuel + 1, c :: rest =>
    if !(pat.isEmpty) && pat.isPrefixOf (c :: rest) then
      removeAllGo pat fuel ((c :: rest).drop pat.length)
    else c :: removeAllGo pat fuel rest

/-- Python `s.replace(pat, "")`. -/
def removeAll (pat s : Str) : Str := removeAllGo pat s.length s

/- ------------------------------------------------------------------ -/
/- git_service.py                                                      -/
/- ------------------------------------------------------------------ -/

/-- Result record of `extract_diff` (git_service.py, `DiffResult`). -/
structure DiffResult where
  content : Str
deriving DecidableEq

/-- The file-boundary marker matched by `_DIFF_FILE_HEADER`
    (`^diff --git ` in MULTILINE mode). -/
def diff_marker : Str := "diff --git ".data

/-- Start offsets of all `_DIFF_FILE_HEADER` matches in `content`: positions
    at the start of the text or just after a newline where the marker occurs. -/
def diff_boundaries (content : Str) : List Nat :=
  (List.range content.length).filter fun i =>
    (i == 0 || ((content.drop (i - 1)).take 1 == nl)) &&
    diff_marker.isPrefixOf (content.drop i)

/-- The per-file segments `file_diffs` of `split_diff_into_chunks`: slices
    of `content` from each boundary to the next (or to the end). -/
def file_segments (content : Str) : List Str :=
  let bs := diff_boundaries content
  (bs.zip (bs.drop 1 ++ [content.length])).map fun p =>
    (content.drop p.1).take (p.2 - p.1)

/-- The truncation `fd = fd[:max_chars]` applied when a single file segment
    exceeds the limit. -/
def trunc_to (max_chars : Nat) (fd : Str) : Str :=
  if max_chars < fd.length then fd.take max_chars else fd

/-- The greedy packing loop of `split_diff_into_chunks`: `current`
    accumulates segments until adding the next one would exceed the limit. -/
def pack_chunks (max_chars : Nat) : List Str → Str → List Str
  | [], current => if current == [] then [] else [current]
  | fd :: rest, current =>
    if !(current == []) &&
        decide (max_chars < current.length + (trunc_to max_chars fd).length) then
      current :: pack_chunks max_chars rest (trunc_to max_chars fd)
    else
      pack_chunks max_chars rest (current ++ trunc_to max_chars fd)

/-- `split_diff_into_chunks` (git_service.py lines 19-42): split a diff at
    `diff --git ` file boundaries into chunks of at most `max_chars`
    characters; without any boundary, return the first `max_chars`
    characters as a single chunk. -/
def split_diff_into_chunks (content : Str) (max_chars : Nat) : List Str :=
  if diff_boundaries content == [] then [content.take max_chars]
  else pack_chunks max_chars (file_segments content) []

/- ------------------------------------------------------------------ -/
/- service/review_service.py : parse_overview_output                   -/
/- ------------------------------------------------------------------ -/

/-- The predicate of the title-scanning loop in `parse_overview_output`:
    `line.strip().startswith("TITLE:")`. -/
def isTitleLine (l : Str) : Bool := "TITLE:".data.isPrefixOf (pyStrip l)

/-- Title text extracted from a title line:
    `line.strip()[len("TITLE:"):].strip()`. -/
def titleOf (l : Str) : Str := pyStrip ((pyStrip l).drop 6)

/-- The `for i, line in enumerate(lines)` scan of `parse_overview_output`:
    index and title of the first line whose stripped form starts with
    `TITLE:`. -/
def find_title_line : List Str → Nat → Option (Nat × Str)
  | [], _ => none
  | l :: rest, i =>
    if isTitleLine l then some (i, titleOf l) else find_title_line rest (i + 1)

/-- The separator predicate of the description window:
    `lines[i].strip() == "---"`. -/
def isSepLine (l : Str) : Bool := pyStrip l == "---".data

/-- Position of the first separator line within the bounded window, as the
    `for i in range(...)` loop of `parse_overview_output` computes it. -/
def find_sep_idx : List Str → Option Nat
  | [] => none
  | l :: rest => if isSepLine l then some 0 else (find_sep_idx rest).map (· + 1)

/-- `parse_overview_output` (service/review_service.py lines 93-118):
    extract a `(title, description)` pair from raw assistant output, falling
    back to an empty title with the full raw text as description. -/
def parse_overview_output (raw : Str) : Str × Str :=
  let lines := splitlinesPy (pyStrip raw)
  match find_title_line lines 0 with
  | none => ([], raw)
  | some (i, title) =>
    if title == [] then ([], raw)
    else
      let window := (lines.drop (i + 1)).take 3
      let desc_start :=
        match find_sep_idx window with
        | some k => i + 1 + k + 1
        | none => i + 1
      (title, pyStrip (List.intercalate nl (lines.drop desc_start)))

/-- Modelled from the spec (amended): the first line whose trimmed form
    starts with `TITLE:` carries the title; when that title is non-empty,
    the description is every line after the first separator found among the
    next up-to-3 lines (or every line right after the title line), trimmed;
    when no `TITLE:` line exists or its remainder is empty, the result is
    the empty title with the full raw text as description.  Stated with
    `takeWhile`/`dropWhile` so it can be compared against the port. -/
def parse_overview_model (raw : Str) : Str × Str :=
  let lines := splitlinesPy (pyStrip raw)
  match lines.dropWhile (fun l => !(isTitleLine l)) with
  | [] => ([], raw)
  | tl :: tail =>
    let t := titleOf tl
    if t == [] then ([], raw)
    else
      let win := tail.take 3
      let wpre := win.takeWhile (fun l => !(isSepLine l))
      let descLines := if wpre.length == win.length then tail else tail.drop (wpre.length + 1)
      (t, pyStrip (List.intercalate nl descLines))

/- ------------------------------------------------------------------ -/
/- config.py                                                           -/
/- ------------------------------------------------------------------ -/

/-- Environment-backed configuration (config.py `Settings`). -/
structure Settings where
  gitlab_token : Str
  gitlab_host : Str
  project_path : Str
  remote_llm_base_url : Str
  remote_llm_api_key : Str
  workspace_base : Str
  aider_model : Str
  aider_timeout : Int
  diff_max_chars : Nat

/-- The credential-bearing clone URL (config.py `repo_url_template`):
    `http://oauth2:{token}@{host}/{project_path}.git`. -/
def repo_url_template (s : Settings) : Str :=
  "http://oauth2:".data ++ s.gitlab_token ++ "@".data ++ s.gitlab_host ++
  "/".data ++ s.project_path ++ ".git".data

/- ------------------------------------------------------------------ -/
/- service/common/aider_subprocess.py : output sanitization            -/
/- ------------------------------------------------------------------ -/

/-- The escape character that opens an ANSI control sequence. -/
def escChar : Char := Char.ofNat 27

/-- Attempt to match the remainder of `_ANSI_ESCAPE` after an escape
    character: one character in `@..underscore`, a run in `0..?`, a run in
    `space../`, then one character in `@..~`; returns the text after the
    sequence on success.  The three character classes are pairwise
    disjoint, so greedy matching is exact. -/
def ansiTail : Str → Option Str
  | [] => none
  | c :: rest =>
    if decide ('@' ≤ c) && decide (c ≤ '_') then
      let r1 := rest.dropWhile (fun d => decide ('0' ≤ d) && decide (d ≤ '?'))
      match r1.dropWhile (fun d => decide (' ' ≤ d) && decide (d ≤ '/')) with
      | d :: rest2 =>
        if decide ('@' ≤ d) && decide (d ≤ '~') then some rest2 else none
      | [] => none
    else none

/-- Worker for `strip_ansi`; fuel is the input length, and every step
    consumes at least one character. -/
def stripAnsiGo : Nat → Str → Str
  | 0, s => s
  | _ + 1, [] => []
  | fuel + 1, c :: rest =>
    if c == escChar then
      match ansiTail rest with
      | some rest2 => stripAnsiGo fuel rest2
      | none => c :: stripAnsiGo fuel rest
    else c :: stripAnsiGo fuel rest

/-- `_strip_ansi`: delete all ANSI escape sequences. -/
def strip_ansi (s : Str) : Str := stripAnsiGo (s.length + 1) s

/-- The box-drawing characters removed by `_strip_box_drawing`. -/
def boxChars : Str := "─│╭╮╰╯┤├┬┴┼═║╔╗╚╝╠╣╦╩╪╫".data

/-- Membership in the box-drawing class. -/
def isBoxChar (c : Char) : Bool := boxChars.contains c

/-- Worker for `strip_box_drawing`; a maximal run of box characters plus an
    optional following newline is dropped. -/
def stripBoxGo : Nat → Str → Str
  | 0, s => s
  | _ + 1, [] => []
  | fuel + 1, c :: rest =>
    if isBoxChar c then
      match rest.dropWhile isBoxChar with
      | '\n' :: r2 => stripBoxGo fuel r2
      | r => stripBoxGo fuel r
    else c :: stripBoxGo fuel rest

/-- `_strip_box_drawing`: remove aider UI separator runs
    (`[─│╭╮ ...]+\n?`). -/
def strip_box_drawing (s : Str) : Str := stripBoxGo (s.length + 1) s

/-- Collapse runs of three or more newlines to exactly two
    (`re.sub(r"\n{3,}", "\n\n", ...)`). -/
def collapseNlGo : Nat → Str → Str
  | 0, s => s
  | _ + 1, [] => []
  | fuel + 1, c :: rest =>
    if c == '\n' then
      let run := rest.takeWhile (fun d => d == '\n')
      let emitted := if 3 ≤ run.length + 1 then nl ++ nl else '\n' :: run
      emitted ++ collapseNlGo fuel (rest.drop run.length)
    else c :: collapseNlGo fuel rest

/-- `re.sub(r"\n{3,}", "\n\n", s)`. -/
def collapseNl (s : Str) : Str := collapseNlGo (s.length + 1) s

/-- Lower-case literal prefixes of `_AIDER_META_LINE` (the regex is
    compiled with IGNORECASE). -/
def aider_meta_prefixes : List Str :=
  ["aider v".data, "model:".data, "git repo:".data, "repo-map:".data,
   "added ".data, "tokens:".data, "applied edit to".data,
   "summarization failed".data,
   "can".data ++ [sqChar] ++ "t summarize".data,
   "auto-committing".data, "warning:".data, "no changes made".data]

/-- The `Only \d+ reflections` alternative of `_AIDER_META_LINE`, applied
    to the lower-cased line. -/
def only_reflections_match (ls : Str) : Bool :=
  "only ".data.isPrefixOf ls &&
  (let rest := ls.drop 5
   let ds := rest.takeWhile Char.isDigit
   !(ds.isEmpty) && " reflections".data.isPrefixOf (rest.drop ds.length))

/-- The filename character class: letters, digits, underscore, dot, slash, dash. -/
def isFNameChar (c : Char) : Bool :=
  c.isAlpha || c.isDigit || c == '_' || c == '.' || c == '/' || c == '-'

/-- The `filename.ext<space>Sentence` alternative of `_AIDER_META_LINE`:
    one or more filename characters, a literal dot, one to five letters,
    whitespace, then a letter (IGNORECASE), decided by searching all
    candidate positions for the literal dot. -/
def meta_fname_sentence (s : Str) : Bool :=
  (List.range s.length).any fun k =>
    !(k == 0) && (s.take k).all isFNameChar && ((s.drop k).take 1 == [('.' : Char)]) &&
    (let rest := s.drop (k + 1)
     let ar := rest.takeWhile Char.isAlpha
     !(ar.isEmpty) && decide (ar.length ≤ 5) &&
     (let t := rest.drop ar.length
      let ws := t.takeWhile isPySpace
      !(ws.isEmpty) &&
      (match t.drop ws.length with
       | c :: _ => c.isAlpha
       | [] => false)))

/-- The bare `filename.ext` alternative of `_AIDER_META_LINE`: one or
    more filename characters, a literal dot, one to five letters, then
    optional whitespace up to the end of the line (IGNORECASE). -/
def meta_fname_alone (s : Str) : Bool :=
  (List.range s.length).any fun k =>
    !(k == 0) && (s.take k).all isFNameChar && ((s.drop k).take 1 == [('.' : Char)]) &&
    (let rest := s.drop (k + 1)
     let ar := rest.takeWhile Char.isAlpha
     !(ar.isEmpty) && decide (ar.length ≤ 5) && (rest.drop ar.length).all isPySpace)

/-- `_AIDER_META_LINE.match(line)`: anchored match of any alternative at the
    start of the line, case-insensitively. -/
def aider_meta_match (s : Str) : Bool :=
  let ls := pyLower s
  aider_meta_prefixes.any (fun p => p.isPrefixOf ls) ||
  only_reflections_match ls || meta_fname_sentence s || meta_fname_alone s

/-- The progress-bar body class `[\s█░▓▒]`. -/
def isBarChar (c : Char) : Bool :=
  isPySpace c || c == '█' || c == '░' || c == '▓' || c == '▒'

/-- Anchored match of `_PROGRESS_BAR` (`\[[\s█░▓▒]+\]\s*\d+%`); the
    classes around each boundary are disjoint, so greedy matching is exact. -/
def progress_bar_at : Str → Bool
  | '[' :: rest =>
    let run := rest.takeWhile isBarChar
    !(run.isEmpty) &&
    (match rest.drop run.length with
     | ']' :: u =>
       let u2 := u.dropWhile isPySpace
       let ds := u2.takeWhile Char.isDigit
       !(ds.isEmpty) &&
       (match u2.drop ds.length with
        | c :: _ => c == '%'
        | [] => false)
     | _ => false)
  | _ => false

/-- `_PROGRESS_BAR.search(line)`. -/
def progress_bar_search (s : Str) : Bool := s.tails.any progress_bar_at

/-- `_extract_llm_response`: keep only the lines that are neither aider
    meta messages nor progress bars, join, strip, and collapse blank runs. -/
def extract_llm_response (text : Str) : Str :=
  let lines := splitlinesPy text
  let result := lines.filterMap fun line =>
    let stripped := pyRstrip line
    if aider_meta_match stripped then none
    else if progress_bar_search stripped then none
    else some stripped
  collapseNl (pyStrip (List.intercalate nl result))

/-- Worker for the MULTILINE `^•\s*` to `"- "` substitution of
    `_normalize_markdown`.  The flag records whether the scan position is at
    a line start; consumed whitespace may include newlines, in which case
    the position after the match is again a line start. -/
def bulletGo : Nat → Bool → Str → Str
  | 0, _, s => s
  | _ + 1, _, [] => []
  | fuel + 1, true, '•' :: rest =>
    let ws := rest.takeWhile isPySpace
    let atStart := ws.getLast? == some '\n'
    '-' :: ' ' :: bulletGo fuel atStart (rest.drop ws.length)
  | fuel + 1, _, c :: rest => c :: bulletGo fuel (c == '\n') rest

/-- The bullet substitution `re.sub(r"^•\s*", "- ", output, flags=MULTILINE)`. -/
def bulletSub (s : Str) : Str := bulletGo (s.length + 1) true s

/-- Worker for `_HEADING_RE`: a newline not preceded by a newline and
    followed by one to three hashes and a space gets doubled.  `prev` is the
    character before the scan position in the original text. -/
def headingPreGo : Nat → Option Char → Str → Str
  | 0, _, s => s
  | _ + 1, _, [] => []
  | fuel + 1, prev, '\n' :: rest =>
    if prev == some '\n' then '\n' :: headingPreGo fuel (some '\n') rest
    else
      let hashes := rest.takeWhile (fun d => d == '#')
      if !(hashes.isEmpty) && decide (hashes.length ≤ 3) &&
          ((rest.drop hashes.length).take 1 == [(' ' : Char)]) then
        '\n' :: '\n' :: (hashes ++ ' ' :: headingPreGo fuel (some ' ') (rest.drop (hashes.length + 1)))
      else '\n' :: headingPreGo fuel (some '\n') rest
  | fuel + 1, _, c :: rest => c :: headingPreGo fuel (some c) rest

/-- The heading-spacing substitution for `_HEADING_RE`. -/
def headingPreSub (s : Str) : Str := headingPreGo (s.length + 1) none s

/-- Worker for `_HEADING_TRAIL_RE`: a heading line (one to three hashes, a
    space, non-empty rest of line) whose newline is not followed by another
    newline gets a blank line appended.  Searched at every position. -/
def headingTrailGo : Nat → Str → Str
  | 0, s => s
  | _ + 1, [] => []
  | fuel + 1, c :: rest =>
    let hashes := (c :: rest).takeWhile (fun d => d == '#')
    if !(hashes.isEmpty) && decide (hashes.length ≤ 3) then
      match (c :: rest).drop hashes.length with
      | ' ' :: r2 =>
        let content := r2.takeWhile (fun d => !(d == '\n'))
        if content.isEmpty then c :: headingTrailGo fuel rest
        else
          match r2.drop content.length with
          | '\n' :: '\n' :: _ => c :: headingTrailGo fuel rest
          | '\n' :: r3 =>
            hashes ++ ' ' :: (content ++ '\n' :: '\n' :: headingTrailGo fuel r3)
          | _ => c :: headingTrailGo fuel rest
      | _ => c :: headingTrailGo fuel rest
    else c :: headingTrailGo fuel rest

/-- The heading-spacing substitution for `_HEADING_TRAIL_RE`. -/
def headingTrailSub (s : Str) : Str := headingTrailGo (s.length + 1) s

/-- `_normalize_markdown`: rstrip every line, normalize bullets, force a
    blank line around headings, collapse blank runs, and strip. -/
def normalize_markdown (text : Str) : Str :=
  let output := List.intercalate nl ((splitlinesPy text).map pyRstrip)
  pyStrip (collapseNl (headingTrailSub (headingPreSub (bulletSub output))))

/-- The `API provider.*down` alternative of `_CONNECTION_ERROR_PATTERNS`
    on lower-cased text: `down` must occur after `api provider` with no
    newline in between (`.` does not match a newline). -/
def api_provider_down (ls : Str) : Bool :=
  ls.tails.any fun t =>
    "api provider".data.isPrefixOf t &&
    strContains ("down".data) ((t.drop 12).takeWhile (fun c => !(c == '\n')))

/-- The `Retrying in \d` alternative of `_CONNECTION_ERROR_PATTERNS` on
    lower-cased text. -/
def retrying_in_digit (ls : Str) : Bool :=
  ls.tails.any fun t =>
    "retrying in ".data.isPrefixOf t &&
    (match (t.drop 12).take 1 with
     | c :: _ => c.isDigit
     | [] => false)

/-- `_CONNECTION_ERROR_PATTERNS.search` (IGNORECASE): upstream-failure
    signatures that aider may print even when exiting with code 0. -/
def conn_error_search (s : Str) : Bool :=
  let ls := pyLower s
  strContains ("connection error".data) ls ||
  strContains ("internalservererror".data) ls ||
  strContains ("litellm.".data) ls ||
  api_provider_down ls ||
  retrying_in_digit ls

/-- The full stdout sanitization pipeline of `_run_aider_subprocess`. -/
def sanitize_stdout (out : Str) : Str :=
  normalize_markdown (extract_llm_response (strip_box_drawing (strip_ansi out)))

/-- Outcome of the external aider subprocess call: it either completes with
    an exit code and raw output streams, expires the timeout
    (`subprocess.TimeoutExpired`), or raises some other exception. -/
inductive AiderProc where
  | completed (returncode : Int) (stdout : Str) (stderr : Str)
  | timedOut
  | exnRaised (msg : Str)

/-- `_run_aider_subprocess` (service/common/aider_subprocess.py lines
    84-132), with the external subprocess outcome passed explicitly:
    sanitize both streams, treat a connection-error signature as failure
    even on exit 0, treat a non-zero exit or a timeout as failure, and
    return the sanitized stdout only when it is non-empty
    (`return stdout or None`). -/
def run_aider_subprocess (_settings : Settings)
    (_mr_iid _workspace_path _prompt : Str) (proc : AiderProc) : Option Str :=
  match proc with
  | AiderProc.timedOut => none
  | AiderProc.exnRaised _ => none
  | AiderProc.completed rc out err =>
    if conn_error_search (sanitize_stdout out) || conn_error_search (strip_ansi err) then none
    else if !(rc == 0) then none
    else if sanitize_stdout out == [] then none
    else some (sanitize_stdout out)

/- ------------------------------------------------------------------ -/
/- service/review_service.py : prompts and the map-reduce overview     -/
/- ------------------------------------------------------------------ -/

/-- `_build_overview_prompt` (single-chunk overview). -/
def build_overview_prompt (diff_result : DiffResult) (original_title : Str) : Str :=
  ("[작업 지시]\n우리 팀 수석 SRE이자 C++ 백엔드 전문가로서, 아래 Merge Request diff를 분석하여\n정확히 지정된 형식으로만 MR 설명 문서를 작성하라.\n형식 외 인사말·부연 설명·지시 반복은 절대 출력하지 마라. 응답은 한글로.\n\n원래 MR 제목: ").data ++
  original_title ++
  ("\n\n[Diff]\n```diff\n").data ++
  diff_result.content ++
  ("\n```\n\n[출력 형식 — < > 부분을 실제 내용으로 채울 것]\n\nTITLE: <동사로 시작, 40자 이내>\n---\n> 🤖 이 설명은 Aider AI가 자동 생성했습니다.\n\n## 📋 변경 개요\n<이번 변경의 목적과 접근 방식. 왜 필요했는지 + 무엇을 어떻게 바꿨는지를 3~5문장으로 서술>\n\n## 🔍 주요 변경 사항\n<변경된 파일·컴포넌트마다 한 항목씩. 형식: `번호. **파일명** — 변경 내용 1~2문장`>\n\n## ⚠️ 리뷰 포인트\n<잠재 버그·성능·메모리 우려사항·개선 제안을 불릿으로. 없으면 \"특이사항 없음\">\n\n---\n*Aider AI Code Review Bot 자동 생성*\n").data

/-- `_build_chunk_analysis_prompt` (map phase, one prompt per chunk). -/
def build_chunk_analysis_prompt (chunk : Str) (chunk_index total_chunks : Nat) : Str :=
  ("[작업 지시]\n아래는 Merge Request diff의 일부(").data ++
  natToStr chunk_index ++ ("/").data ++ natToStr total_chunks ++
  (" 청크)다.\n변경된 각 파일에 대해 아래 형식으로만 출력하라. 인사말·부연 없이.\n\n형식:\nFILE: <파일명>\nCHANGES: <변경 내용 1~2문장>\nCONCERNS: <잠재 문제나 리뷰 포인트. 없으면 \"없음\">\n\n[Diff 청크]\n```diff\n").data ++
  chunk ++
  ("\n```\n").data

/-- `_build_aggregate_prompt` (reduce phase). -/
def build_aggregate_prompt (chunk_analyses : List Str) (original_title : Str) : Str :=
  let combined := List.intercalate ("\n\n---\n\n").data
    (chunk_analyses.enum.map fun p =>
      ("[청크 ").data ++ natToStr (p.1 + 1) ++ ("]\n").data ++ p.2)
  ("[작업 지시]\n우리 팀 수석 SRE이자 C++ 백엔드 전문가로서, 아래 청크별 분석을 종합하여\n정확히 지정된 형식으로만 MR 설명 문서를 작성하라.\n형식 외 인사말·부연 설명·지시 반복은 절대 출력하지 마라. 응답은 한글로.\n\n원래 MR 제목: ").data ++
  original_title ++
  ("\n\n[청크별 분석]\n").data ++
  combined ++
  ("\n\n[출력 형식]\nTITLE: <동사로 시작, 40자 이내>\n---\n> 🤖 이 설명은 Aider AI가 자동 생성했습니다.\n\n## 📋 변경 개요\n<목적과 접근 방식. 3~5문장>\n\n## 🔍 주요 변경 사항\n<변경된 파일·컴포넌트마다 한 항목씩. 형식: `번호. **파일명** — 변경 내용 1~2문장`>\n\n## ⚠️ 리뷰 포인트\n<잠재 버그·성능·메모리 우려사항·개선 제안을 불릿으로. 없으면 \"특이사항 없음\">\n\n---\n*Aider AI Code Review Bot 자동 생성*\n").data

/-- The map phase of `run_aider_overview`: invoke the assistant once per
    chunk (`enumerate(chunks, 1)`), keeping only truthy results (`if
    result:`), each failure being skipped.  `invoke` supplies the
    per-prompt behaviour of `_run_aider_subprocess`. -/
def map_phase (invoke : Str → Option Str) (chunks : List Str) : List Str :=
  chunks.enum.filterMap fun p =>
    match invoke (build_chunk_analysis_prompt p.2 (p.1 + 1) chunks.length) with
    | some r => if r == [] then none else some r
    | none => none

/-- `run_aider_overview` (service/review_service.py lines 121-161): a
    single-chunk diff goes straight to the overview prompt; otherwise each
    chunk is analysed, a failed chunk is skipped, an empty map phase fails
    the task, and the aggregation invocation produces the only text that is
    parsed into `(title, description)`. -/
def run_aider_overview (invoke : Str → Option Str) (settings : Settings)
    (_mr_iid _workspace_path : Str) (diff_result : DiffResult)
    (original_title : Str) : Option (Str × Str) :=
  let chunks := split_diff_into_chunks diff_result.content settings.diff_max_chars
  if chunks.length == 1 then
    match invoke (build_overview_prompt diff_result original_title) with
    | none => none
    | some raw => some (parse_overview_output raw)
  else
    let chunk_analyses := map_phase invoke chunks
    if chunk_analyses == [] then none
    else
      match invoke (build_aggregate_prompt chunk_analyses original_title) with
      | none => none
      | some raw => some (parse_overview_output raw)

/- ------------------------------------------------------------------ -/
/- git_service.py : sync_repository and extract_diff                   -/
/- ------------------------------------------------------------------ -/

/-- A log record with its level; only the message text is modelled. -/
inductive LogMsg where
  | info (text : Str)
  | error (text : Str)

/-- The error-level texts of a log. -/
def errorTexts (logs : List LogMsg) : List Str :=
  logs.filterMap fun l =>
    match l with
    | LogMsg.error m => some m
    | LogMsg.info _ => none

/-- Environment for one `sync_repository` call: whether the workspace is
    already a checkout, the `(returncode, stderr)` of each git command that
    would run, and an optional non-`CalledProcessError` exception. -/
structure SyncEnv where
  gitDirExists : Bool
  fetch : Int × Str
  checkout : Int × Str
  pull : Int × Str
  clone : Int × Str
  exn : Option Str

/-- The first failing command of a `check=True` sequence, if any. -/
def firstFailure (cmds : List (Int × Str)) : Option (Int × Str) :=
  cmds.find? fun c => !(c.1 == 0)

/-- The `CalledProcessError` log line of `sync_repository`; the stderr text
    is decoded and stripped before being interpolated. -/
def sync_fail_msg (mr_iid : Str) (rc : Int) (stderr : Str) : Str :=
  ("❌ [MR #").data ++ mr_iid ++ ("] Git 명령어 실패 (코드 ").data ++
  intToStr rc ++ ("): ").data ++ pyStrip stderr

/-- The generic-exception log line of `sync_repository`. -/
def sync_exn_msg (mr_iid : Str) (t : Str) : Str :=
  ("⚠️ [MR #").data ++ mr_iid ++ ("] git 동기화 에러 발생: ").data ++ t

/-- `sync_repository` (git_service.py lines 45-81): pull an existing
    checkout (fetch, checkout, pull) or clone a fresh one; any failing
    command logs an error with exit code and stripped stderr and yields
    `False`.  Returns the success flag together with the emitted log. -/
def sync_repository (_settings : Settings) (env : SyncEnv)
    (_workspace_path mr_iid source_branch : Str) : Bool × List LogMsg :=
  match env.exn with
  | some t => (false, [LogMsg.error (sync_exn_msg mr_iid t)])
  | none =>
    if env.gitDirExists then
      let infos := [LogMsg.info (("🔄 [MR #").data ++ mr_iid ++ ("] 기존 작업 공간 발견. Pull을 수행합니다.").data),
                    LogMsg.info (("      - source_branch: ").data ++ source_branch)]
      match firstFailure [env.fetch, env.checkout, env.pull] with
      | some f => (false, infos ++ [LogMsg.error (sync_fail_msg mr_iid f.1 f.2)])
      | none => (true, infos)
    else
      let infos := [LogMsg.info (("📥 [MR #").data ++ mr_iid ++ ("] 새 작업 공간 생성. Clone을 진행합니다.").data),
                    LogMsg.info (("      - source_branch: ").data ++ source_branch)]
      if !(env.clone.1 == 0) then
        (false, infos ++ [LogMsg.error (sync_fail_msg mr_iid env.clone.1 env.clone.2)])
      else (true, infos)

/-- Environment for one `extract_diff` call: the fetch command result, the
    diff command result (whose exit code is never consulted), and an
    optional non-`CalledProcessError` exception. -/
structure DiffEnv where
  fetch : Int × Str
  diffRc : Int
  diffStdout : Str
  diffStderr : Str
  exn : Option Str

/-- The `CalledProcessError` log line of `extract_diff`. -/
def diff_fail_msg (mr_iid : Str) (rc : Int) (stderr : Str) : Str :=
  ("❌ [MR #").data ++ mr_iid ++ ("] Diff 추출 실패 (코드 ").data ++
  intToStr rc ++ ("): ").data ++ pyStrip stderr

/-- The generic-exception log line of `extract_diff`. -/
def diff_exn_msg (mr_iid : Str) (t : Str) : Str :=
  ("⚠️ [MR #").data ++ mr_iid ++ ("] diff 추출 에러 발생: ").data ++ t

/-- `extract_diff` (git_service.py lines 84-104): fetch the target branch
    (`check=True`, so a non-zero exit aborts with `None`), then run the
    diff without checking its exit code and return its stdout as the
    `DiffResult` content. -/
def extract_diff (_settings : Settings) (env : DiffEnv)
    (_workspace_path mr_iid _source_branch target_branch : Str) :
    Option DiffResult × List LogMsg :=
  match env.exn with
  | some t => (none, [LogMsg.error (diff_exn_msg mr_iid t)])
  | none =>
    let infos := [LogMsg.info (("🔍 [MR #").data ++ mr_iid ++ ("] ").data ++
      target_branch ++ ("와(과)의 Diff를 추출합니다.").data)]
    if !(env.fetch.1 == 0) then
      (none, infos ++ [LogMsg.error (diff_fail_msg mr_iid env.fetch.1 env.fetch.2)])
    else
      (some { content := env.diffStdout }, infos)

/- ------------------------------------------------------------------ -/
/- webhook_handler.py : route_webhook                                  -/
/- ------------------------------------------------------------------ -/

/-- JSON-like payload values, as delivered by the webhook body. -/
inductive Json where
  | null
  | bool (b : Bool)
  | num (n : Int)
  | str (s : Str)
  | arr (xs : List Json)
  | obj (kvs : List (Str × Json))

/-- Python dictionary lookup `d.get(k)` on an association list. -/
def dictGet (kvs : List (Str × Json)) (k : Str) : Option Json :=
  (kvs.find? fun p => p.1 == k).map fun p => p.2

/-- Python truthiness of a JSON value. -/
def truthy : Json → Bool
  | Json.null => false
  | Json.bool b => b
  | Json.num n => !(n == 0)
  | Json.str s => !(s.isEmpty)
  | Json.arr xs => !(xs.isEmpty)
  | Json.obj kvs => !(kvs.isEmpty)

/-- The Python exception value raised when `.get` or `.lower` is called on
    a value that does not support it. -/
def attr_error : Str := "AttributeError".data

/-- `value.get(k, default)`: association lookup on a mapping, an
    `AttributeError` on anything else. -/
def jsonGetD (j : Json) (k : Str) (d : Json) : Except Str Json :=
  match j with
  | Json.obj kvs => Except.ok ((dictGet kvs k).getD d)
  | _ => Except.error attr_error

/-- `value.get(k)` with Python's implicit `None` default. -/
def jsonGet (j : Json) (k : Str) : Except Str Json := jsonGetD j k Json.null

mutual

/-- Simplified Python `repr` for containers (quoting without escape
    handling), used only through `pyStr` on container values. -/
def pyRepr : Json → Str
  | Json.null => "None".data
  | Json.bool true => "True".data
  | Json.bool false => "False".data
  | Json.num n => intToStr n
  | Json.str s => sqChar :: (s ++ [sqChar])
  | Json.arr xs => '[' :: (List.intercalate (", ").data (pyReprList xs) ++ [(']' : Char)])
  | Json.obj kvs =>
    Char.ofNat 123 :: (List.intercalate (", ").data (pyReprObj kvs) ++ [Char.ofNat 125])

def pyReprList : List Json → List Str
  | [] => []
  | x :: xs => pyRepr x :: pyReprList xs

def pyReprObj : List (Str × Json) → List Str
  | [] => []
  | p :: xs => (sqChar :: (p.1 ++ [sqChar]) ++ (": ").data ++ pyRepr p.2) :: pyReprObj xs

end

/-- Python `str(value)` for the values that can reach `str(...)` in
    `route_webhook`. -/
def pyStr : Json → Str
  | Json.null => "None".data
  | Json.bool true => "True".data
  | Json.bool false => "False".data
  | Json.num n => intToStr n
  | Json.str s => s
  | Json.arr xs => pyRepr (Json.arr xs)
  | Json.obj kvs => pyRepr (Json.obj kvs)

/-- Is this JSON value the given string (Python `==` against a string)? -/
def jsonIsStr (j : Json) (s : Str) : Bool :=
  match j with
  | Json.str t => t == s
  | _ => false

/-- Background work scheduled by the router, by task kind and arguments. -/
inductive BgTask where
  | comment (project_id mr_iid : Str) (source_branch target_branch : Json)
      (question : Str)
  | overview (project_id mr_iid : Str) (source_branch target_branch : Json)
      (original_title : Json)
  | cleanup (mr_iid : Str)

/-- The mention token scanned for in note bodies. -/
def mention_token : Str := "@aider".data

/-- `str(payload.get("project_id") or payload.get("project", {}).get("id")
    or "")`, with Python's short-circuit evaluation: the `project` branch
    (and its possible `AttributeError`) is reached only when `project_id`
    is falsy. -/
def compute_project_id (payload : List (Str × Json)) : Except Str Str :=
  let a := (dictGet payload ("project_id").data).getD Json.null
  if truthy a then Except.ok (pyStr a)
  else
    match jsonGet ((dictGet payload ("project").data).getD (Json.obj [])) ("id").data with
    | Except.error e => Except.error e
    | Except.ok b =>
      if truthy b then Except.ok (pyStr b) else Except.ok (pyStr (Json.str []))

/-- The `object_kind == "note"` branch of `route_webhook`. -/
def route_note (payload : List (Str × Json)) (project_id : Str) :
    Except Str (Str × List BgTask) :=
  let merge_request := (dictGet payload ("merge_request").data).getD Json.null
  if !(truthy merge_request) then Except.ok (("ignored").data, [])
  else
    match jsonGetD ((dictGet payload ("object_attributes").data).getD (Json.obj []))
        ("note").data (Json.str []) with
    | Except.error e => Except.error e
    | Except.ok noteVal =>
      match noteVal with
      | Json.str noteStr =>
        let comment_text := pyLower noteStr
        if !(strContains mention_token comment_text) then Except.ok (("ignored").data, [])
        else
          match jsonGet merge_request ("iid").data with
          | Except.error e => Except.error e
          | Except.ok iidVal =>
            match jsonGet merge_request ("source_branch").data,
                  jsonGetD merge_request ("target_branch").data (Json.str ("main").data) with
            | Except.ok sb, Except.ok tb =>
              Except.ok (("queued").data,
                [BgTask.comment project_id (pyStr iidVal) sb tb
                  (pyStrip (removeAll mention_token comment_text))])
            | Except.error e, _ => Except.error e
            | _, Except.error e => Except.error e
      | _ => Except.error attr_error

/-- The `object_kind == "merge_request"` branch of `route_webhook`. -/
def route_mr (payload : List (Str × Json)) (project_id : Str) :
    Except Str (Str × List BgTask) :=
  let mr_attributes := (dictGet payload ("object_attributes").data).getD (Json.obj [])
  match jsonGet mr_attributes ("iid").data with
  | Except.error e => Except.error e
  | Except.ok iidVal =>
    let mr_iid := pyStr iidVal
    match jsonGet mr_attributes ("action").data, jsonGet mr_attributes ("state").data with
    | Except.error e, _ => Except.error e
    | _, Except.error e => Except.error e
    | Except.ok action, Except.ok state =>
      match jsonGet mr_attributes ("source_branch").data,
            jsonGetD mr_attributes ("target_branch").data (Json.str ("main").data) with
      | Except.error e, _ => Except.error e
      | _, Except.error e => Except.error e
      | Except.ok sb, Except.ok tb =>
        if jsonIsStr action ("open").data then
          match jsonGetD mr_attributes ("title").data (Json.str []) with
          | Except.error e => Except.error e
          | Except.ok mrTitle =>
            Except.ok (("overview_queued").data,
              [BgTask.overview project_id mr_iid sb tb mrTitle])
        else if jsonIsStr state ("closed").data || jsonIsStr state ("merged").data ||
            jsonIsStr action ("close").data || jsonIsStr action ("merge").data then
          Except.ok (("cleanup_queued").data, [BgTask.cleanup mr_iid])
        else Except.ok (("ignored").data, [])

/-- `route_webhook` (webhook_handler.py lines 95-162), with scheduled
    background tasks made explicit in the result and Python exceptions
    modelled by `Except.error`: note events with a truthy `merge_request`
    and a mention are queued as comment tasks, `merge_request` events
    dispatch overview or cleanup tasks, everything else is ignored. -/
def route_webhook (payload : List (Str × Json)) : Except Str (Str × List BgTask) :=
  let object_kind := (dictGet payload ("object_kind").data).getD Json.null
  match compute_project_id payload with
  | Except.error e => Except.error e
  | Except.ok project_id =>
    if jsonIsStr object_kind ("note").data then route_note payload project_id
    else if jsonIsStr object_kind ("merge_request").data then route_mr payload project_id
    else Except.ok (("ignored").data, [])

/-- The statuses that `route_webhook` may report to the webhook caller. -/
def status_strings : List Str :=
  [("ignored").data, ("queued").data, ("auto_review_queued").data,
   ("overview_queued").data, ("cleanup_queued").data]

/-- Does the router result carry one of the documented statuses (rather
    than a raised exception)? -/
def route_ok_status (r : Except Str (Str × List BgTask)) : Bool :=
  match r with
  | Except.ok p => status_strings.any fun s => s == p.1
  | Except.error _ => false

/- ------------------------------------------------------------------ -/
/- Concrete inputs used by counterexamples and witnesses               -/
/- ------------------------------------------------------------------ -/

/-- A two-file diff whose segments (29 characters each) cannot share a
    30-character chunk. -/
def wDiff : Str :=
  ("diff --git a/f1 b/f1\n+aaaaaa\ndiff --git a/f2 b/f2\n+bbbbbb\n").data

/-- Settings fixture with a 30-character chunk limit. -/
def wSettings : Settings :=
  { gitlab_token := ("SECRET").data
    gitlab_host := ("gl").data
    project_path := ("g/p").data
    remote_llm_base_url := ("u").data
    remote_llm_api_key := ("k").data
    workspace_base := ("w").data
    aider_model := ("m").data
    aider_timeout := 600
    diff_max_chars := 30 }

/-- The per-chunk analysis text returned by the witness oracle. -/
def wResp : Str := ("FILE: f").data

/-- Witness oracle for the map-reduce path: both chunk prompts succeed,
    the aggregation prompt fails. -/
def wInvoke (p : Str) : Option Str :=
  if p == build_aggregate_prompt [wResp, wResp] (("T").data) then none else some wResp

/-- Sync environment in which the clone command fails and git echoes the
    credential-bearing URL on stderr. -/
def wSyncEnvLeak : SyncEnv :=
  { gitDirExists := false
    fetch := (0, [])
    checkout := (0, [])
    pull := (0, [])
    clone := (128, ("fatal: unable to access ").data ++ repo_url_template wSettings)
    exn := none }

/-- Sync environment whose failing command reports a URL-free stderr. -/
def wSyncEnvClean : SyncEnv :=
  { gitDirExists := true
    fetch := (0, [])
    checkout := (1, ("error: pathspec did not match").data)
    pull := (0, [])
    clone := (0, [])
    exn := none }

/-- Diff-extraction environment: fetch succeeds, the diff command exits
    non-zero yet its stdout is still used. -/
def wDiffEnv : DiffEnv :=
  { fetch := (0, [])
    diffRc := 5
    diffStdout := ("diff --git a/x b/x\n+1\n").data
    diffStderr := ("warning").data
    exn := none }

/-- Note payload whose comment mentions the bot in mixed case. -/
def wNotePayload : List (Str × Json) :=
  [(("object_kind").data, Json.str ("note").data),
   (("project_id").data, Json.num 42),
   (("merge_request").data, Json.obj
     [(("iid").data, Json.num 7),
      (("source_branch").data, Json.str ("feat").data),
      (("target_branch").data, Json.str ("dev").data)]),
   (("object_attributes").data, Json.obj
     [(("note").data, Json.str ("Hey @AIDER review").data)])]

/-- Payload whose `project` entry is a number, so the project-id fallback
    chain calls `.get` on a non-mapping. -/
def wBadProjectPayload : List (Str × Json) :=
  [(("project").data, Json.num 5)]

/-- Diff-extraction environment whose fetch fails with a URL-free stderr. -/
def wDiffEnvFail : DiffEnv :=
  { fetch := (3, ("fatal: could not read from remote").data)
    diffRc := 0
    diffStdout := []
    diffStderr := []
    exn := none }

/- ================================================================== -/
/- Theorems                                                            -/
/- ================================================================== -/

/-- Each truncated segment fits the limit. -/
theorem trunc_to_length_le (L : Nat) (fd : Str) : (trunc_to L fd).length ≤ L := by
  unfold trunc_to
  split
  · simp [List.length_take]
  · omega

/-- Every chunk emitted by the packing loop fits the limit, provided the
    accumulator does. -/
theorem pack_chunks_length_le (L : Nat) :
    ∀ (fds : List Str) (cur : Str), cur.length ≤ L →
      ∀ c ∈ pack_chunks L fds cur, c.length ≤ L := by
  intro fds
  induction fds with
  | nil =>
    intro cur hcur c hc
    unfold pack_chunks at hc
    split at hc
    · simp at hc
    · simp at hc
      subst hc
      exact hcur
  | cons fd rest ih =>
    intro cur hcur c hc
    unfold pack_chunks at hc
    split at hc
    · rcases List.mem_cons.mp hc with h1 | h1
      · subst h1
        exact hcur
      · exact ih (trunc_to L fd) (trunc_to_length_le L fd) c h1
    · rename_i hcond
      simp only [Bool.and_eq_true, Bool.not_eq_true', beq_eq_false_iff_ne,
        decide_eq_true_eq, not_and, ne_eq, not_not] at hcond
      have hlen : (cur ++ trunc_to L fd).length ≤ L := by
        by_cases hnil : cur = []
        · subst hnil
          simpa using trunc_to_length_le L fd
        · have := hcond hnil
          simp only [List.length_append]
          omega
      exact ih (cur ++ trunc_to L fd) hlen c hc

/-- C2: for every diff content and every limit L > 0, every chunk returned
    by `split_diff_into_chunks` has length at most L. -/
theorem split_diff_chunk_length_le (D : Str) (L : Nat) (_h : 0 < L) :
    ((split_diff_into_chunks D L).all fun c => decide (c.length ≤ L)) = true := by
  rw [List.all_eq_true]
  intro c hc
  simp only [decide_eq_true_eq]
  unfold split_diff_into_chunks at hc
  split at hc
  · simp at hc
    subst hc
    simp [List.length_take]
  · exact pack_chunks_length_le L (file_segments D) [] (by simp) c hc

/-- C2 witness: the bound holds on a concrete two-file diff with limit 30. -/
theorem split_diff_chunk_length_le_witness :
    0 < 30 ∧
    ((split_diff_into_chunks wDiff 30).all fun c => decide (c.length ≤ 30)) = true :=
  ⟨by decide, split_diff_chunk_length_le wDiff 30 (by decide)⟩

/-- The packing loop only reorders segment boundaries: its chunks flatten
    to the accumulator followed by the truncated segments. -/
theorem pack_chunks_flatten (L : Nat) :
    ∀ (fds : List Str) (cur : Str),
      (pack_chunks L fds cur).flatten = cur ++ (fds.map (trunc_to L)).flatten := by
  intro fds
  induction fds with
  | nil =>
    intro cur
    unfold pack_chunks
    split
    · rename_i hnil
      simp only [beq_iff_eq] at hnil
      subst hnil
      simp
    · simp
  | cons fd rest ih =>
    intro cur
    unfold pack_chunks
    split
    · simp [ih (trunc_to L fd), List.append_assoc]
    · simp [ih (cur ++ trunc_to L fd), List.append_assoc]

/-- Every chunk pushed by the packing loop is non-empty: a chunk is pushed
    only after the `if current` truthiness check. -/
theorem pack_chunks_ne_nil (L : Nat) :
    ∀ (fds : List Str) (cur : Str), ∀ c ∈ pack_chunks L fds cur, c ≠ [] := by
  intro fds
  induction fds with
  | nil =>
    intro cur c hc
    unfold pack_chunks at hc
    split at hc
    · simp at hc
    · rename_i hnil
      simp only [beq_iff_eq] at hnil
      simp at hc
      subst hc
      exact hnil
  | cons fd rest ih =>
    intro cur c hc
    unfold pack_chunks at hc
    split at hc
    · rename_i hcond
      simp only [Bool.and_eq_true, Bool.not_eq_true', beq_eq_false_iff_ne, ne_eq,
        decide_eq_true_eq] at hcond
      rcases List.mem_cons.mp hc with h1 | h1
      · subst h1
        exact hcond.1
      · exact ih (trunc_to L fd) c h1
    · exact ih (cur ++ trunc_to L fd) c hc

/-- C4 counterexample: on the empty diff content the function returns a
    single chunk that is the empty string, so "no chunk is the empty
    string" fails as universally stated. -/
theorem split_diff_empty_chunk_cex :
    split_diff_into_chunks ([] : Str) 1 = [([] : Str)] ∧
    ([] : Str) ∈ split_diff_into_chunks ([] : Str) 1 := by
  constructor
  · rfl
  · rw [show split_diff_into_chunks ([] : Str) 1 = [([] : Str)] from rfl]
    exact List.mem_singleton.mpr rfl

/-- C4 (amended): for L > 0 and non-empty diff content no returned chunk is
    empty; content without a file-boundary marker yields exactly one chunk
    holding the first L characters; and the final, possibly partially-filled
    chunk is always included in the result: in the marker case the returned
    chunks flatten to the entire packed content (the flatten equality would
    fail on any input with a non-empty trailing accumulator if the loop did
    not flush it).  For empty content the single returned chunk is the
    empty string (see the counterexample). -/
theorem split_diff_chunks_nonempty (D : Str) (L : Nat) (h : 0 < L) (hD : D ≠ []) :
    ((split_diff_into_chunks D L).all fun c => !(c.isEmpty)) = true ∧
    (diff_boundaries D = [] → split_diff_into_chunks D L = [D.take L]) ∧
    (diff_boundaries D ≠ [] →
      (split_diff_into_chunks D L).flatten =
        ((file_segments D).map (trunc_to L)).flatten) := by
  refine ⟨?_, ?_, ?_⟩
  · rw [List.all_eq_true]
    intro c hc
    simp only [Bool.not_eq_true', List.isEmpty_eq_false, ne_eq]
    unfold split_diff_into_chunks at hc
    split at hc
    · simp at hc
      subst hc
      cases D with
      | nil => exact absurd rfl hD
      | cons d ds =>
        cases L with
        | zero => exact absurd h (by omega)
        | succ k => simp
    · exact pack_chunks_ne_nil L (file_segments D) [] c hc
  · intro hbd
    unfold split_diff_into_chunks
    rw [hbd]
    simp
  · intro hbd
    unfold split_diff_into_chunks
    rw [if_neg (by simpa using hbd), pack_chunks_flatten]
    simp

/-- C4 witness: a concrete two-file diff with limit 30 has only non-empty
    chunks, and the final partially-filled chunk is flushed — the chunks
    flatten to the full packed content. -/
theorem split_diff_chunks_nonempty_witness :
    (0 < 30 ∧ wDiff ≠ []) ∧
    (((split_diff_into_chunks wDiff 30).all fun c => !(c.isEmpty)) = true ∧
     (diff_boundaries wDiff = [] → split_diff_into_chunks wDiff 30 = [wDiff.take 30]) ∧
     (diff_boundaries wDiff ≠ [] →
       (split_diff_into_chunks wDiff 30).flatten =
         ((file_segments wDiff).map (trunc_to 30)).flatten)) :=
  ⟨⟨by decide, by decide⟩, split_diff_chunks_nonempty wDiff 30 (by decide) (by decide)⟩

/-- Boundary offsets are listed in strictly increasing order. -/
theorem diff_boundaries_sorted (D : Str) :
    (diff_boundaries D).Pairwise (· < ·) :=
  (List.pairwise_lt_range D.length).filter _

/-- Every boundary offset lies inside the content. -/
theorem diff_boundaries_lt (D : Str) :
    ∀ b ∈ diff_boundaries D, b < D.length := by
  intro b hb
  exact List.mem_range.mp (List.mem_filter.mp hb).1

/-- Content that starts with the file-boundary marker has offset 0 as its
    first boundary. -/
theorem diff_boundaries_head0 (D : Str) (hm : diff_marker.isPrefixOf D = true) :
    ∃ tl, diff_boundaries D = 0 :: tl := by
  have hmem : 0 ∈ diff_boundaries D := by
    apply List.mem_filter.mpr
    refine ⟨?_, ?_⟩
    · apply List.mem_range.mpr
      cases D with
      | nil => simp [diff_marker, List.isPrefixOf] at hm
      | cons d ds => simp
    · simp only [beq_self_eq_true, Bool.true_or, Bool.true_and, List.drop_zero]
      exact hm
  have hsort := diff_boundaries_sorted D
  rcases hfb : diff_boundaries D with _ | ⟨b, tl⟩
  · rw [hfb] at hmem
    simp at hmem
  · rw [hfb] at hmem hsort
    have hb0 : b = 0 := by
      rcases List.mem_cons.mp hmem with h0 | h0
      · exact h0.symm
      · have := (List.pairwise_cons.mp hsort).1 0 h0
        omega
    subst hb0
    exact ⟨tl, rfl⟩

/-- Consecutive slices between sorted offsets tile the content from the
    first offset onward. -/
theorem zip_slices_flatten (D : Str) :
    ∀ (bs : List Nat) (b0 : Nat), (b0 :: bs).Pairwise (· < ·) →
      (∀ b ∈ b0 :: bs, b < D.length) →
      ((((b0 :: bs).zip (bs ++ [D.length])).map fun p =>
          (D.drop p.1).take (p.2 - p.1)).flatten) = D.drop b0 := by
  intro bs
  induction bs with
  | nil =>
    intro b0 _ _
    have hlen : (D.drop b0).length ≤ D.length - b0 := by
      simp [List.length_drop]
    simp only [List.zip_cons_cons, List.zip_nil_right, List.map_cons, List.map_nil,
      List.flatten_cons, List.flatten_nil, List.append_nil, List.nil_append]
    exact List.take_of_length_le hlen
  | cons b1 tl ih =>
    intro b0 hsort hbound
    have hb01 : b0 < b1 := (List.pairwise_cons.mp hsort).1 b1 (by simp)
    have htail : (((b1 :: tl).zip (tl ++ [D.length])).map
        (fun p => (D.drop p.1).take (p.2 - p.1))).flatten = D.drop b1 :=
      ih b1 (List.pairwise_cons.mp hsort).2 (fun b hb => hbound b (List.mem_cons_of_mem b0 hb))
    simp only [List.cons_append, List.zip_cons_cons, List.map_cons, List.flatten_cons, htail]
    have hdd : D.drop b1 = (D.drop b0).drop (b1 - b0) := by
      rw [List.drop_drop]
      congr 1
      omega
    rw [hdd, List.take_append_drop]

/-- C3 (amended): for content that begins with a file-boundary marker (as
    every real multi-file unified diff does), the concatenation of the
    returned chunks equals the concatenation of the per-file segments after
    per-segment truncation, and the segments themselves tile the content
    exactly; content before the first marker (absent from real diffs) is
    dropped, as the counterexample shows. -/
theorem split_diff_concat_of_marker (D : Str) (L : Nat) (_h : 0 < L)
    (hm : diff_marker.isPrefixOf D = true) :
    (split_diff_into_chunks D L).flatten = ((file_segments D).map (trunc_to L)).flatten ∧
    (file_segments D).flatten = D := by
  obtain ⟨tl, hb⟩ := diff_boundaries_head0 D hm
  constructor
  · unfold split_diff_into_chunks
    rw [hb, if_neg (by simp), pack_chunks_flatten]
    simp
  · unfold file_segments
    rw [hb]
    simp only [List.drop_succ_cons, List.drop_zero]
    have hsort := diff_boundaries_sorted D
    have hlt := diff_boundaries_lt D
    rw [hb] at hsort hlt
    have := zip_slices_flatten D tl 0 hsort hlt
    simpa using this

/-- C3 counterexample: content holding characters before the first
    file-boundary marker loses them, although no per-file segment exceeds
    the limit — so reconstruction "up to truncation only" fails as
    universally stated. -/
theorem split_diff_concat_cex :
    ('a' ∈ ("ab\ndiff --git x").data) ∧
    ((file_segments (("ab\ndiff --git x").data)).all fun s => decide (s.length ≤ 100)) = true ∧
    ((split_diff_into_chunks (("ab\ndiff --git x").data) 100).all
      fun c => !(c.contains 'a')) = true := by
  refine ⟨by decide, by decide, by decide⟩

/-- C3 witness: the amended reconstruction holds on a concrete two-file
    diff with limit 30. -/
theorem split_diff_concat_of_marker_witness :
    (0 < 30 ∧ diff_marker.isPrefixOf wDiff = true) ∧
    ((split_diff_into_chunks wDiff 30).flatten =
      ((file_segments wDiff).map (trunc_to 30)).flatten ∧
     (file_segments wDiff).flatten = wDiff) :=
  ⟨⟨by decide, by decide⟩, split_diff_concat_of_marker wDiff 30 (by decide) (by decide)⟩

/-- C1: the assistant invocation returns `some text` exactly when the
    subprocess completes within the timeout with exit code 0, neither the
    sanitized stdout nor the sanitized stderr matches an upstream-failure
    signature, and the sanitized stdout is non-empty; every other outcome
    (a signature match even on exit 0, a non-zero exit, a timeout, or a
    raised exception) yields `none`. -/
theorem run_aider_subprocess_some_iff (settings : Settings)
    (mr ws prompt : Str) (proc : AiderProc) (t : Str) :
    run_aider_subprocess settings mr ws prompt proc = some t ↔
      ∃ rc out err, proc = AiderProc.completed rc out err ∧ rc = 0 ∧
        conn_error_search (sanitize_stdout out) = false ∧
        conn_error_search (strip_ansi err) = false ∧
        sanitize_stdout out ≠ [] ∧ t = sanitize_stdout out := by
  cases proc with
  | timedOut => simp [run_aider_subprocess]
  | exnRaised m => simp [run_aider_subprocess]
  | completed rc out err =>
    simp only [run_aider_subprocess]
    constructor
    · intro h
      split at h
      · exact absurd h (by simp)
      · split at h
        · exact absurd h (by simp)
        · split at h
          · exact absurd h (by simp)
          · rename_i h1 h2 h3
            simp only [Bool.not_eq_true, Bool.or_eq_false_iff] at h1
            simp only [Bool.not_eq_true, Bool.not_eq_false', beq_iff_eq] at h2
            simp only [Bool.not_eq_true, beq_eq_false_iff_ne, ne_eq] at h3
            refine ⟨rc, out, err, rfl, h2, h1.1, h1.2, h3, ?_⟩
            exact (Option.some_inj.mp h).symm
    · rintro ⟨rc', out', err', heq, hrc, hc1, hc2, hne, ht⟩
      cases heq
      have hb3 : (sanitize_stdout out == []) = false := beq_eq_false_iff_ne.mpr hne
      have hb2 : (!(rc == 0)) = false := by
        rw [hrc]
        decide
      rw [hc1, hc2, hb2, hb3, ht]
      simp

/-- C7: with no Python-level exception, `extract_diff` returns `none`
    exactly when the target-branch fetch exits non-zero; when the fetch
    succeeds, the diff command's stdout is returned as the result content
    regardless of the diff command's exit code (which the environment
    carries but the function never consults). -/
theorem extract_diff_fetch_fatal_diff_not (settings : Settings) (env : DiffEnv)
    (ws mr src tgt : Str) (hexn : env.exn = none) :
    (env.fetch.1 ≠ 0 → (extract_diff settings env ws mr src tgt).1 = none) ∧
    (env.fetch.1 = 0 → (extract_diff settings env ws mr src tgt).1 =
      some { content := env.diffStdout }) := by
  constructor
  · intro hf
    simp [extract_diff, hexn, hf]
  · intro hf
    simp [extract_diff, hexn, hf]

/-- C7 witness: with a fetch that exits 0 and a diff command that exits 5,
    the result still carries the diff stdout. -/
theorem extract_diff_fetch_fatal_diff_not_witness :
    wDiffEnv.exn = none ∧
    ((wDiffEnv.fetch.1 ≠ 0 →
        (extract_diff wSettings wDiffEnv (("w").data) (("7").data) (("feat").data)
          (("main").data)).1 = none) ∧
     (wDiffEnv.fetch.1 = 0 →
        (extract_diff wSettings wDiffEnv (("w").data) (("7").data) (("feat").data)
          (("main").data)).1 = some { content := wDiffEnv.diffStdout })) :=
  ⟨rfl, extract_diff_fetch_fatal_diff_not wSettings wDiffEnv (("w").data) (("7").data)
    (("feat").data) (("main").data) rfl⟩

/-- The Boolean substring test agrees with `List.IsInfix`. -/
theorem strContains_iff (pat s : Str) : strContains pat s = true ↔ pat <:+: s := by
  unfold strContains
  rw [List.any_eq_true]
  constructor
  · rintro ⟨t, ht, hpre⟩
    have h1 : pat <+: t := List.isPrefixOf_iff_prefix.mp hpre
    have h2 : t <:+ s := (List.mem_tails t s).mp ht
    exact List.infix_iff_prefix_suffix.mpr ⟨t, h1, h2⟩
  · intro h
    obtain ⟨t, h1, h2⟩ := List.infix_iff_prefix_suffix.mp h
    exact ⟨t, (List.mem_tails t s).mpr h2, List.isPrefixOf_iff_prefix.mpr h1⟩

/-- Stripping only removes characters, so `pyStrip s` is an infix of `s`. -/
theorem pyStrip_infix_self (s : Str) : pyStrip s <:+: s := by
  have h1 : pyLstrip s <:+ s := List.dropWhile_suffix isPySpace
  have h2 : pyRstrip (pyLstrip s) <+: pyLstrip s := by
    have h3 : ((pyLstrip s).reverse.dropWhile isPySpace).reverse <+:
        ((pyLstrip s).reverse).reverse :=
      ( List.reverse_prefix).mpr (List.dropWhile_suffix isPySpace)
    simpa [List.reverse_reverse] using h3
  exact List.infix_iff_prefix_suffix.mpr ⟨pyLstrip s, h2, h1⟩

/-- An occurrence of a pattern whose first character does not appear in the
    front part of a concatenation must lie entirely in the back part. -/
theorem infix_head_right {p : Str} {c : Char} {p' A e : Str}
    (hp : p = c :: p') (hA : c ∉ A) (h : p <:+: A ++ e) : p <:+: e := by
  obtain ⟨u, v, huv⟩ := h
  rw [List.append_assoc] at huv
  rcases List.append_eq_append_iff.mp huv with ⟨a2, ha1, ha2⟩ | ⟨c2, _, hc2⟩
  · cases a2 with
    | nil =>
      simp only [List.nil_append] at ha2
      exact ⟨[], v, by simp [ha2]⟩
    | cons x xs =>
      rw [hp] at ha2
      simp only [List.cons_append] at ha2
      have hx : c = x := (List.cons.injEq _ _ _ _).mp ha2 |>.1
      have : x ∈ A := by
        rw [ha1]
        exact List.mem_append_right u (by simp)
      rw [← hx] at this
      exact absurd this hA
  · exact ⟨c2, v, by rw [← List.append_assoc] at hc2; exact hc2.symm⟩

/-- If the pattern starts with a character absent from the front part and
    does not occur in the back part, it does not occur in the whole. -/
theorem strContains_append_false {u : Str} {c : Char} {u' A e : Str}
    (hu : u = c :: u') (hA : c ∉ A) (he : strContains u e = false) :
    strContains u (A ++ e) = false := by
  cases hcon : strContains u (A ++ e) with
  | false => rfl
  | true =>
    have hi := strContains_iff u (A ++ e) |>.mp hcon
    have h2 := strContains_iff u e |>.mpr (infix_head_right hu hA hi)
    rw [he] at h2
    cases h2

/-- A pattern absent from a string is also absent from its stripped form. -/
theorem strContains_pyStrip_false {u e : Str} (he : strContains u e = false) :
    strContains u (pyStrip e) = false := by
  cases hcon : strContains u (pyStrip e) with
  | false => rfl
  | true =>
    have hi := strContains_iff u (pyStrip e) |>.mp hcon
    have h2 := strContains_iff u e |>.mpr (hi.trans (pyStrip_infix_self e))
    rw [he] at h2
    cases h2

/-- Digit extraction only ever emits decimal digit characters. -/
theorem natToStrAux_digits :
    ∀ (fuel n : Nat) (acc : Str), (∀ c ∈ acc, c.isDigit = true) →
      ∀ c ∈ natToStrAux fuel n acc, c.isDigit = true := by
  intro fuel
  induction fuel with
  | zero =>
    intro n acc hacc c hc
    exact hacc c hc
  | succ f ih =>
    intro n acc hacc c hc
    have hdig : (Char.ofNat (48 + n % 10)).isDigit = true := by
      have h10 : n % 10 < 10 := Nat.mod_lt _ (by decide)
      set k := n % 10 with hk
      interval_cases k <;> decide
    unfold natToStrAux at hc
    split at hc
    · rcases List.mem_cons.mp hc with h1 | h1
      · rw [h1]
        exact hdig
      · exact hacc c h1
    · refine ih (n / 10) _ ?_ c hc
      intro d hd
      rcases List.mem_cons.mp hd with h1 | h1
      · rw [h1]
        exact hdig
      · exact hacc d h1

/-- The letter `h` never occurs in the decimal rendering of an integer. -/
theorem intToStr_no_h (n : Int) : 'h' ∉ intToStr n := by
  intro hmem
  cases n with
  | ofNat m =>
    have := natToStrAux_digits (m + 1) m [] (by simp) 'h' hmem
    simp at this
  | negSucc m =>
    rcases List.mem_cons.mp hmem with h1 | h1
    · simp at h1
    · have := natToStrAux_digits (m + 2) (m + 1) [] (by simp) 'h' h1
      simp at this

/-- The credential-bearing URL starts with the letter `h`. -/
theorem url_head (settings : Settings) :
    ∃ w, repo_url_template settings = 'h' :: w := ⟨_, rfl⟩

/-- The URL cannot occur in a `sync_repository` command-failure log line
    unless it occurs in the command's stderr. -/
theorem url_not_in_sync_fail_msg (settings : Settings) (mr : Str) (rc : Int)
    (st : Str) (hmr : ∀ c ∈ mr, c.isDigit = true)
    (hst : strContains (repo_url_template settings) st = false) :
    strContains (repo_url_template settings) (sync_fail_msg mr rc st) = false := by
  obtain ⟨w, hu⟩ := url_head settings
  unfold sync_fail_msg
  refine strContains_append_false hu ?_ (strContains_pyStrip_false hst)
  simp only [List.mem_append]
  rintro ((((h | h) | h) | h) | h)
  · exact absurd h (by decide)
  · have := hmr 'h' h
    simp at this
  · exact absurd h (by decide)
  · exact absurd h (intToStr_no_h rc)
  · exact absurd h (by decide)

/-- The URL cannot occur in a `sync_repository` exception log line unless
    it occurs in the exception text. -/
theorem url_not_in_sync_exn_msg (settings : Settings) (mr t : Str)
    (hmr : ∀ c ∈ mr, c.isDigit = true)
    (ht : strContains (repo_url_template settings) t = false) :
    strContains (repo_url_template settings) (sync_exn_msg mr t) = false := by
  obtain ⟨w, hu⟩ := url_head settings
  unfold sync_exn_msg
  refine strContains_append_false hu ?_ ht
  simp only [List.mem_append]
  rintro ((h | h) | h)
  · exact absurd h (by decide)
  · have := hmr 'h' h
    simp at this
  · exact absurd h (by decide)

/-- The URL cannot occur in an `extract_diff` command-failure log line
    unless it occurs in the fetch stderr. -/
theorem url_not_in_diff_fail_msg (settings : Settings) (mr : Str) (rc : Int)
    (st : Str) (hmr : ∀ c ∈ mr, c.isDigit = true)
    (hst : strContains (repo_url_template settings) st = false) :
    strContains (repo_url_template settings) (diff_fail_msg mr rc st) = false := by
  obtain ⟨w, hu⟩ := url_head settings
  unfold diff_fail_msg
  refine strContains_append_false hu ?_ (strContains_pyStrip_false hst)
  simp only [List.mem_append]
  rintro ((((h | h) | h) | h) | h)
  · exact absurd h (by decide)
  · have := hmr 'h' h
    simp at this
  · exact absurd h (by decide)
  · exact absurd h (intToStr_no_h rc)
  · exact absurd h (by decide)

/-- The URL cannot occur in an `extract_diff` exception log line unless it
    occurs in the exception text. -/
theorem url_not_in_diff_exn_msg (settings : Settings) (mr t : Str)
    (hmr : ∀ c ∈ mr, c.isDigit = true)
    (ht : strContains (repo_url_template settings) t = false) :
    strContains (repo_url_template settings) (diff_exn_msg mr t) = false := by
  obtain ⟨w, hu⟩ := url_head settings
  unfold diff_exn_msg
  refine strContains_append_false hu ?_ ht
  simp only [List.mem_append]
  rintro ((h | h) | h)
  · exact absurd h (by decide)
  · have := hmr 'h' h
    simp at this
  · exact absurd h (by decide)

/-- C6 (amended): no failure-path log message of `sync_repository` or
    `extract_diff` interpolates the credential-bearing repository URL
    itself; whenever the git stderr streams and exception texts supplied by
    the environment are free of the URL (and the MR id is numeric, as the
    router produces it), every error-level log message is free of the URL.
    The counterexample shows the URL does flow into a log line when git
    itself echoes it on stderr. -/
theorem sync_extract_no_url_leak (settings : Settings) (senv : SyncEnv)
    (denv : DiffEnv) (ws mr src tgt : Str)
    (hmr : ∀ c ∈ mr, c.isDigit = true)
    (hs1 : strContains (repo_url_template settings) senv.fetch.2 = false)
    (hs2 : strContains (repo_url_template settings) senv.checkout.2 = false)
    (hs3 : strContains (repo_url_template settings) senv.pull.2 = false)
    (hs4 : strContains (repo_url_template settings) senv.clone.2 = false)
    (hs5 : ∀ t, senv.exn = some t →
      strContains (repo_url_template settings) t = false)
    (hd1 : strContains (repo_url_template settings) denv.fetch.2 = false)
    (hd2 : ∀ t, denv.exn = some t →
      strContains (repo_url_template settings) t = false) :
    ((errorTexts (sync_repository settings senv ws mr src).2).all
       (fun m => !(strContains (repo_url_template settings) m))) = true ∧
    ((errorTexts (extract_diff settings denv ws mr src tgt).2).all
       (fun m => !(strContains (repo_url_template settings) m))) = true := by
  constructor
  · cases hexn : senv.exn with
    | some t =>
      simp only [sync_repository, hexn, errorTexts, List.filterMap_cons,
        List.filterMap_nil, List.all_cons, List.all_nil, Bool.and_true,
        Bool.not_eq_true']
      exact url_not_in_sync_exn_msg settings mr t hmr (hs5 t hexn)
    | none =>
      cases hgit : senv.gitDirExists with
      | true =>
        cases hff : firstFailure [senv.fetch, senv.checkout, senv.pull] with
        | some f =>
          simp only [sync_repository, hexn, hgit, hff, if_true, errorTexts,
            List.filterMap_append, List.filterMap_cons, List.filterMap_nil,
            List.all_cons, List.all_nil, Bool.and_true, Bool.not_eq_true',
            List.nil_append, List.all_append]
          have hfmem : f ∈ [senv.fetch, senv.checkout, senv.pull] :=
            List.mem_of_find?_eq_some hff
          have hf2 : strContains (repo_url_template settings) f.2 = false := by
            rcases List.mem_cons.mp hfmem with h1 | h1
            · rw [h1]
              exact hs1
            · rcases List.mem_cons.mp h1 with h2 | h2
              · rw [h2]
                exact hs2
              · rcases List.mem_cons.mp h2 with h3 | h3
                · rw [h3]
                  exact hs3
                · simp at h3
          exact url_not_in_sync_fail_msg settings mr f.1 f.2 hmr hf2
        | none =>
          simp [sync_repository, hexn, hgit, hff, errorTexts]
      | false =>
        cases hcl : (senv.clone.1 == 0) with
        | true =>
          simp [sync_repository, hexn, hgit, hcl, errorTexts]
        | false =>
          simp only [sync_repository, hexn, hgit, hcl, Bool.not_false, if_true,
            Bool.false_eq_true, if_false, errorTexts, List.filterMap_append,
            List.filterMap_cons, List.filterMap_nil, List.all_append,
            List.all_cons, List.all_nil, Bool.and_true, Bool.not_eq_true',
            List.nil_append]
          exact url_not_in_sync_fail_msg settings mr senv.clone.1 senv.clone.2 hmr hs4
  · cases hexn : denv.exn with
    | some t =>
      simp only [extract_diff, hexn, errorTexts, List.filterMap_cons,
        List.filterMap_nil, List.all_cons, List.all_nil, Bool.and_true,
        Bool.not_eq_true']
      exact url_not_in_diff_exn_msg settings mr t hmr (hd2 t hexn)
    | none =>
      cases hfr : (denv.fetch.1 == 0) with
      | true =>
        simp [extract_diff, hexn, hfr, errorTexts]
      | false =>
        simp only [extract_diff, hexn, hfr, Bool.not_false, if_true, errorTexts,
          List.filterMap_append, List.filterMap_cons, List.filterMap_nil,
          List.all_append, List.all_cons, List.all_nil, Bool.and_true,
          Bool.not_eq_true', List.nil_append]
        exact url_not_in_diff_fail_msg settings mr denv.fetch.1 denv.fetch.2 hmr hd1

/-- C6 counterexample: when the clone command fails and git echoes the
    credential-bearing URL on stderr, `sync_repository` logs an error
    message that contains the URL verbatim — so the claim fails as stated. -/
theorem sync_url_leak_cex :
    ((errorTexts (sync_repository wSettings wSyncEnvLeak (("w").data) (("7").data)
        (("feat").data)).2).any
      (fun m => strContains (repo_url_template wSettings) m)) = true := by
  decide

/-- C6 witness: with URL-free stderr streams, no error-level log line of a
    failing sync or a failing diff extraction contains the URL. -/
theorem sync_extract_no_url_leak_witness :
    (∀ c ∈ (("7").data : Str), c.isDigit = true) ∧
    (((errorTexts (sync_repository wSettings wSyncEnvClean (("w").data) (("7").data)
         (("feat").data)).2).all
        (fun m => !(strContains (repo_url_template wSettings) m))) = true ∧
     ((errorTexts (extract_diff wSettings wDiffEnvFail (("w").data) (("7").data)
         (("feat").data) (("main").data)).2).all
        (fun m => !(strContains (repo_url_template wSettings) m))) = true) :=
  ⟨by decide,
   sync_extract_no_url_leak wSettings wSyncEnvClean wDiffEnvFail (("w").data)
     (("7").data) (("feat").data) (("main").data)
     (by decide) (by decide) (by decide) (by decide) (by decide)
     (by intro t ht; simp [wSyncEnvClean] at ht)
     (by decide)
     (by intro t ht; simp [wDiffEnvFail] at ht)⟩

/-- C10: on the multi-chunk path, even when the map phase produced at least
    one successful per-chunk analysis, `run_aider_overview` returns `none`
    whenever the final aggregation invocation returns `none` — only the
    reduce invocation's output is ever parsed into the result pair. -/
theorem run_aider_overview_aggregate_none (invoke : Str → Option Str)
    (settings : Settings) (mr ws : Str) (dr : DiffResult) (title : Str)
    (hmulti : 1 < (split_diff_into_chunks dr.content settings.diff_max_chars).length)
    (hsome : map_phase invoke
      (split_diff_into_chunks dr.content settings.diff_max_chars) ≠ [])
    (hagg : invoke (build_aggregate_prompt
      (map_phase invoke (split_diff_into_chunks dr.content settings.diff_max_chars))
      title) = none) :
    run_aider_overview invoke settings mr ws dr title = none := by
  have h1 : ((split_diff_into_chunks dr.content settings.diff_max_chars).length == 1)
      = false := by
    simp only [beq_eq_false_iff_ne, ne_eq]
    omega
  have h2 : (map_phase invoke
      (split_diff_into_chunks dr.content settings.diff_max_chars) == []) = false :=
    beq_eq_false_iff_ne.mpr hsome
  simp only [run_aider_overview, h1, Bool.false_eq_true, if_false, h2, hagg]

set_option maxRecDepth 10000 in
/-- C10 witness: on a concrete two-chunk diff, an oracle that answers every
    chunk prompt but fails the aggregation prompt makes the overview fail. -/
theorem run_aider_overview_aggregate_none_witness :
    (1 < (split_diff_into_chunks wDiff 30).length ∧
     map_phase wInvoke (split_diff_into_chunks wDiff 30) ≠ [] ∧
     wInvoke (build_aggregate_prompt
       (map_phase wInvoke (split_diff_into_chunks wDiff 30)) (("T").data)) = none) ∧
    run_aider_overview wInvoke wSettings (("7").data) (("w").data)
      { content := wDiff } (("T").data) = none :=
  ⟨⟨by decide, by decide, by rfl⟩,
   run_aider_overview_aggregate_none wInvoke wSettings (("7").data) (("w").data)
     { content := wDiff } (("T").data) (by decide) (by decide) (by rfl)⟩

/-- The title-scanning loop finds exactly the first line that survives
    `dropWhile` on the non-title predicate, at the offset given by the
    matching `takeWhile` length. -/
theorem find_title_line_eq :
    ∀ (lines : List Str) (i : Nat),
      find_title_line lines i =
        match lines.dropWhile (fun l => !(isTitleLine l)) with
        | [] => none
        | tl :: _ =>
          some (i + (lines.takeWhile (fun l => !(isTitleLine l))).length, titleOf tl) := by
  intro lines
  induction lines with
  | nil =>
    intro i
    simp [find_title_line]
  | cons l rest ih =>
    intro i
    by_cases ht : isTitleLine l
    · simp [find_title_line, ht, List.dropWhile_cons, List.takeWhile_cons]
    · have ht2 : isTitleLine l = false := by
        simp [ht]
      simp only [find_title_line, ht2, Bool.false_eq_true, if_false,
        List.dropWhile_cons, List.takeWhile_cons, Bool.not_false, if_true]
      rw [ih (i + 1)]
      cases hd : rest.dropWhile (fun l => !(isTitleLine l)) with
      | nil => rfl
      | cons tl tail =>
        simp only [List.length_cons]
        congr 1
        congr 1
        omega

/-- The separator-window loop finds exactly the `takeWhile` length of the
    non-separator prefix, when a separator exists. -/
theorem find_sep_idx_eq :
    ∀ (ls : List Str),
      find_sep_idx ls =
        match ls.dropWhile (fun l => !(isSepLine l)) with
        | [] => none
        | _ :: _ => some (ls.takeWhile (fun l => !(isSepLine l))).length := by
  intro ls
  induction ls with
  | nil => simp [find_sep_idx]
  | cons l rest ih =>
    by_cases hs : isSepLine l
    · simp [find_sep_idx, hs, List.dropWhile_cons, List.takeWhile_cons]
    · have hs2 : isSepLine l = false := by
        simp [hs]
      simp only [find_sep_idx, hs2, Bool.false_eq_true, if_false,
        List.dropWhile_cons, List.takeWhile_cons, Bool.not_false, if_true]
      rw [ih]
      cases hd : rest.dropWhile (fun l => !(isSepLine l)) with
      | nil => rfl
      | cons w ws => simp

/-- The ported parser agrees with the amended-specification model on every
    input: the first line whose trimmed form starts with `TITLE:` decides
    the title; a non-empty title selects the description window, any other
    outcome falls back to the empty title with the full raw text. -/
theorem parse_overview_output_eq_model (raw : Str) :
    parse_overview_output raw = parse_overview_model raw := by
  unfold parse_overview_output parse_overview_model
  dsimp only
  rw [find_title_line_eq]
  cases hd : (splitlinesPy (pyStrip raw)).dropWhile (fun l => !(isTitleLine l)) with
  | nil => rfl
  | cons tl tail =>
    set pre := (splitlinesPy (pyStrip raw)).takeWhile (fun l => !(isTitleLine l)) with hpre
    have hsplit : pre ++ (tl :: tail) = splitlinesPy (pyStrip raw) := by
      rw [hpre, ← hd]
      exact List.takeWhile_append_dropWhile (fun l => !(isTitleLine l)) (splitlinesPy (pyStrip raw))
    have hdrop : ∀ n, (splitlinesPy (pyStrip raw)).drop (pre.length + n) = (tl :: tail).drop n := by
      intro n
      rw [← hsplit, List.drop_append]
    dsimp only
    by_cases htitle : (titleOf tl == []) = true
    · rw [if_pos htitle, if_pos htitle]
    · rw [if_neg htitle, if_neg htitle]
      have hwin : List.take 3 (List.drop (0 + pre.length + 1) (splitlinesPy (pyStrip raw))) =
          List.take 3 tail := by
        rw [show (0 : Nat) + pre.length + 1 = pre.length + 1 from by omega, hdrop 1]
        rfl
      rw [hwin, find_sep_idx_eq]
      set k := ((List.take 3 tail).takeWhile (fun l => !(isSepLine l))).length with hk
      cases hw : (List.take 3 tail).dropWhile (fun l => !(isSepLine l)) with
      | nil =>
        have hlen : k = (List.take 3 tail).length := by
          rw [hk]
          have h2 := List.takeWhile_append_dropWhile (fun l => !(isSepLine l)) (List.take 3 tail)
          rw [hw, List.append_nil] at h2
          rw [h2]
        have hdt : List.drop (0 + pre.length + 1) (splitlinesPy (pyStrip raw)) = tail := by
          rw [show (0 : Nat) + pre.length + 1 = pre.length + 1 from by omega, hdrop 1]
          rfl
        rw [hdt, ← hlen]
        simp
      | cons w ws =>
        have hlt : k < (List.take 3 tail).length := by
          have h2 := List.takeWhile_append_dropWhile (fun l => !(isSepLine l)) (List.take 3 tail)
          rw [hw] at h2
          have h3 := congrArg List.length h2
          simp only [List.length_append, List.length_cons] at h3
          rw [hk]
          omega
        have hbeq : (k == (List.take 3 tail).length) = false := by
          simp only [beq_eq_false_iff_ne, ne_eq]
          omega
        have hdt : List.drop (0 + pre.length + 1 + k + 1) (splitlinesPy (pyStrip raw)) =
            List.drop (k + 1) tail := by
          rw [show (0 : Nat) + pre.length + 1 + k + 1 = pre.length + (k + 2) from by omega,
            hdrop (k + 2)]
          rfl
        rw [hdt, hbeq]
        simp

/-- C5 (amended): `parse_overview_output` behaves as the specification
    model describes, with the fallback `("", raw)` also taken when the
    first `TITLE:` line has an empty remainder (not only when no such line
    exists); on the round-trip examples it returns `("Fix bug", "Body
    text")` and, without a marker, the empty title with the raw text. -/
theorem parse_overview_output_correct :
    (∀ raw, parse_overview_output raw = parse_overview_model raw) ∧
    parse_overview_output (("TITLE: Fix bug\n---\nBody text").data) =
      (("Fix bug").data, ("Body text").data) ∧
    parse_overview_output (("no title marker here").data) =
      ([], ("no title marker here").data) :=
  ⟨parse_overview_output_eq_model, by decide, by decide⟩

/-- C5 counterexample: on `"TITLE:\n---\nBody"` a `TITLE:` line exists and
    the separator follows, so the claim prescribes the pair `("", "Body")`;
    the code instead returns the full raw text as description, because the
    empty-title fallback also covers an empty remainder. -/
theorem parse_overview_output_cex :
    parse_overview_output (("TITLE:\n---\nBody").data) =
      ([], ("TITLE:\n---\nBody").data) ∧
    parse_overview_output (("TITLE:\n---\nBody").data) ≠ ([], ("Body").data) := by
  refine ⟨by decide, by decide⟩

/-- C8 (amended): for a note payload with a non-empty `merge_request`
    mapping and a string comment body, a body without the mention token
    (case-insensitively) is ignored with no task scheduled, while a body
    containing it schedules exactly one comment task whose question text is
    the lower-cased comment with every occurrence of `@aider` removed and
    surrounding whitespace stripped (not the original-cased comment), and
    the reported status is `queued`. -/
theorem route_webhook_note_mention (payload : List (Str × Json)) (pid : Str)
    (mkvs okvs : List (Str × Json)) (s : Str)
    (hk : dictGet payload (("object_kind").data) = some (Json.str (("note").data)))
    (hpid : compute_project_id payload = Except.ok pid)
    (hmr : dictGet payload (("merge_request").data) = some (Json.obj mkvs))
    (hne : mkvs.isEmpty = false)
    (hoa : dictGet payload (("object_attributes").data) = some (Json.obj okvs))
    (hnote : dictGet okvs (("note").data) = some (Json.str s)) :
    (strContains mention_token (pyLower s) = false →
      route_webhook payload = Except.ok ((("ignored").data), [])) ∧
    (strContains mention_token (pyLower s) = true →
      route_webhook payload = Except.ok ((("queued").data),
        [BgTask.comment pid (pyStr ((dictGet mkvs (("iid").data)).getD Json.null))
          ((dictGet mkvs (("source_branch").data)).getD Json.null)
          ((dictGet mkvs (("target_branch").data)).getD (Json.str (("main").data)))
          (pyStrip (removeAll mention_token (pyLower s)))])) := by
  have hroute : route_webhook payload = route_note payload pid := by
    unfold route_webhook
    dsimp only
    rw [hpid, hk]
    rfl
  rw [hroute]
  unfold route_note
  dsimp only
  rw [hmr]
  have htr : truthy (Json.obj mkvs) = true := by
    simp [truthy, hne]
  simp only [Option.getD_some, htr, Bool.not_true, Bool.false_eq_true, if_false]
  rw [hoa]
  simp only [Option.getD_some, jsonGetD]
  rw [hnote]
  simp only [Option.getD_some]
  constructor
  · intro hc
    rw [hc]
    rfl
  · intro hc
    rw [hc]
    rfl


/-- The project-id fallback chain never raises when the `project` entry,
    if consulted, is a mapping. -/
theorem compute_project_id_ok (payload : List (Str × Json))
    (hproj : ∀ v, dictGet payload (("project").data) = some v → ∃ kvs, v = Json.obj kvs) :
    ∃ pid, compute_project_id payload = Except.ok pid := by
  unfold compute_project_id
  dsimp only
  by_cases ha : truthy ((dictGet payload (("project_id").data)).getD Json.null) = true
  · rw [if_pos ha]
    exact ⟨_, rfl⟩
  · rw [if_neg ha]
    cases hp : dictGet payload (("project").data) with
    | none => exact ⟨pyStr (Json.str []), rfl⟩
    | some v =>
      obtain ⟨kvs, rfl⟩ := hproj v hp
      simp only [Option.getD_some, jsonGet, jsonGetD]
      by_cases hb : truthy ((dictGet kvs (("id").data)).getD Json.null) = true
      · rw [if_pos hb]
        exact ⟨_, rfl⟩
      · rw [if_neg hb]
        exact ⟨_, rfl⟩

/-- The note branch reports a documented status for every well-shaped
    payload. -/
theorem route_note_status (payload : List (Str × Json)) (pid : Str)
    (hmr : ∀ v, dictGet payload (("merge_request").data) = some v →
      truthy v = false ∨ ∃ kvs, v = Json.obj kvs)
    (hoa : ∀ v, dictGet payload (("object_attributes").data) = some v →
      ∃ kvs, v = Json.obj kvs)
    (hnote : ∀ kvs v, dictGet payload (("object_attributes").data) = some (Json.obj kvs) →
      dictGet kvs (("note").data) = some v → ∃ s, v = Json.str s) :
    route_ok_status (route_note payload pid) = true := by
  unfold route_note
  dsimp only
  cases hm : dictGet payload (("merge_request").data) with
  | none => rfl
  | some v =>
    simp only [Option.getD_some]
    rcases hmr v hm with hfal | ⟨mkvs, rfl⟩
    · rw [if_pos (by simp [hfal])]
      rfl
    · by_cases hke : mkvs.isEmpty = true
      · rw [if_pos (by simp [truthy, hke])]
        rfl
      · rw [if_neg (by simp [truthy]; simpa using hke)]
        cases ho : dictGet payload (("object_attributes").data) with
        | none => rfl
        | some w =>
          obtain ⟨okvs, rfl⟩ := hoa w ho
          simp only [Option.getD_some, jsonGetD]
          cases hn : dictGet okvs (("note").data) with
          | none => rfl
          | some nv =>
            obtain ⟨s, rfl⟩ := hnote okvs nv ho hn
            simp only [Option.getD_some]
            by_cases hc : strContains mention_token (pyLower s) = true
            · rw [if_neg (by simp [hc])]
              rfl
            · simp only [Bool.not_eq_true] at hc
              rw [if_pos (by simp [hc])]
              rfl

/-- The merge-request branch reports a documented status for every
    well-shaped payload. -/
theorem route_mr_status (payload : List (Str × Json)) (pid : Str)
    (hoa : ∀ v, dictGet payload (("object_attributes").data) = some v →
      ∃ kvs, v = Json.obj kvs) :
    route_ok_status (route_mr payload pid) = true := by
  unfold route_mr
  dsimp only
  cases ho : dictGet payload (("object_attributes").data) with
  | none => rfl
  | some w =>
    obtain ⟨okvs, rfl⟩ := hoa w ho
    simp only [Option.getD_some, jsonGet, jsonGetD]
    by_cases hact : jsonIsStr ((dictGet okvs (("action").data)).getD Json.null)
        (("open").data) = true
    · rw [if_pos hact]
      rfl
    · rw [if_neg hact]
      by_cases hcl : (jsonIsStr ((dictGet okvs (("state").data)).getD Json.null)
            (("closed").data) ||
          jsonIsStr ((dictGet okvs (("state").data)).getD Json.null) (("merged").data) ||
          jsonIsStr ((dictGet okvs (("action").data)).getD Json.null) (("close").data) ||
          jsonIsStr ((dictGet okvs (("action").data)).getD Json.null) (("merge").data)) = true
      · rw [if_pos hcl]
        rfl
      · rw [if_neg hcl]
        rfl

/-- C9 (amended): `route_webhook` returns one of the documented statuses
    without raising, for every payload whose `project`, `merge_request` and
    `object_attributes` entries are mappings whenever they are consulted as
    such (with a falsy `merge_request` also allowed) and whose `note` entry
    is a string; the counterexample shows an arbitrary nested mapping can
    instead make the router raise `AttributeError`. -/
theorem route_webhook_total (payload : List (Str × Json))
    (hproj : ∀ v, dictGet payload (("project").data) = some v → ∃ kvs, v = Json.obj kvs)
    (hmr : ∀ v, dictGet payload (("merge_request").data) = some v →
      truthy v = false ∨ ∃ kvs, v = Json.obj kvs)
    (hoa : ∀ v, dictGet payload (("object_attributes").data) = some v →
      ∃ kvs, v = Json.obj kvs)
    (hnote : ∀ kvs v, dictGet payload (("object_attributes").data) = some (Json.obj kvs) →
      dictGet kvs (("note").data) = some v → ∃ s, v = Json.str s) :
    route_ok_status (route_webhook payload) = true := by
  obtain ⟨pid, hpid⟩ := compute_project_id_ok payload hproj
  unfold route_webhook
  dsimp only
  rw [hpid]
  cases hk : dictGet payload (("object_kind").data) with
  | none => rfl
  | some okv =>
    simp only [Option.getD_some]
    by_cases hk2 : jsonIsStr okv (("note").data) = true
    · rw [if_pos hk2]
      exact route_note_status payload pid hmr hoa hnote
    · rw [if_neg hk2]
      by_cases hk3 : jsonIsStr okv (("merge_request").data) = true
      · rw [if_pos hk3]
        exact route_mr_status payload pid hoa
      · rw [if_neg hk3]
        rfl

/-- C8 counterexample: for the comment `"Hey @AIDER review"` the scheduled
    question text is the lower-cased `"hey  review"`; the original-cased
    word `Hey` does not appear in it, so "question text equals the original
    comment with the mention token and surrounding whitespace stripped"
    fails as stated. -/
theorem route_webhook_mention_cex :
    route_webhook wNotePayload = Except.ok ((("queued").data),
      [BgTask.comment (("42").data) (("7").data) (Json.str (("feat").data))
        (Json.str (("dev").data)) (("hey  review").data)]) ∧
    strContains (("Hey").data) (("hey  review").data) = false := by
  refine ⟨by rfl, by rfl⟩

/-- C8 witness: the amended behaviour instantiated on the concrete
    mixed-case mention payload. -/
theorem route_webhook_note_mention_witness :
    (strContains mention_token (pyLower (("Hey @AIDER review").data)) = false →
      route_webhook wNotePayload = Except.ok ((("ignored").data), [])) ∧
    (strContains mention_token (pyLower (("Hey @AIDER review").data)) = true →
      route_webhook wNotePayload = Except.ok ((("queued").data),
        [BgTask.comment (("42").data)
          (pyStr ((dictGet [((("iid").data), Json.num 7),
              ((("source_branch").data), Json.str (("feat").data)),
              ((("target_branch").data), Json.str (("dev").data))]
              (("iid").data)).getD Json.null))
          ((dictGet [((("iid").data), Json.num 7),
              ((("source_branch").data), Json.str (("feat").data)),
              ((("target_branch").data), Json.str (("dev").data))]
              (("source_branch").data)).getD Json.null)
          ((dictGet [((("iid").data), Json.num 7),
              ((("source_branch").data), Json.str (("feat").data)),
              ((("target_branch").data), Json.str (("dev").data))]
              (("target_branch").data)).getD (Json.str (("main").data)))
          (pyStrip (removeAll mention_token (pyLower (("Hey @AIDER review").data))))])) :=
  route_webhook_note_mention wNotePayload (("42").data)
    [((("iid").data), Json.num 7),
     ((("source_branch").data), Json.str (("feat").data)),
     ((("target_branch").data), Json.str (("dev").data))]
    [((("note").data), Json.str (("Hey @AIDER review").data))]
    (("Hey @AIDER review").data) rfl rfl rfl rfl rfl rfl

/-- C9 counterexample: the nested mapping `{"project": 5}` makes the
    project-id fallback call `.get` on a number, so `route_webhook` raises
    `AttributeError` instead of returning a status. -/
theorem route_webhook_raises_cex :
    route_webhook wBadProjectPayload = Except.error attr_error ∧
    route_ok_status (route_webhook wBadProjectPayload) = false := by
  refine ⟨by rfl, by rfl⟩

/-- C9 witness: the empty payload satisfies every shape hypothesis
    vacuously and the router reports a documented status on it. -/
theorem route_webhook_total_witness :
    route_ok_status (route_webhook ([] : List (Str × Json))) = true :=
  route_webhook_total []
    (fun _ hv => Option.noConfusion hv)
    (fun _ hv => Option.noConfusion hv)
    (fun _ hv => Option.noConfusion hv)
    (fun _ _ h1 _ => Option.noConfusion h1)
